import Mathlib

/-
Verification of the cube-state engine of the 3×3×3 twisty-puzzle simulator
(src/app/page.tsx).  The data model, rotation kernel, move algebra and facelet
codec are embedded below as executable Lean definitions translated line by line
from the TypeScript source; the theorems at the end settle the specification
claims against them.
-/

/-- Position of a cell: the integer index coordinates of the source's `Vec3`,
each component in the set with elements -1, 0, 1. -/
abbrev Vec3 := Int × Int × Int

/-- The source's `FaceColors` 6-tuple, slot order [ +X, -X, +Y, -Y, +Z, -Z ]. -/
structure FaceColors where
  fx : String
  fmx : String
  fy : String
  fmy : String
  fz : String
  fmz : String
deriving DecidableEq

/-- The source's `CubeCell`: stable id, logical position, per-slot colors. -/
structure CubeCell where
  id : Nat
  index : Vec3
  faces : FaceColors
deriving DecidableEq

/-- The source's `Move`: axis 0/1/2 for X/Y/Z, layer -1/0/1, direction ±1
(1 models the source's clockwise value, -1 counterclockwise). -/
structure Move where
  axis : Fin 3
  layer : Int
  direction : Int
deriving DecidableEq

/-- Component lookup `v[a]`, mirroring the source's `cell.index[axis]`. -/
def compon (v : Vec3) (a : Fin 3) : Int :=
  match a with
  | 0 => v.1
  | 1 => v.2.1
  | 2 => v.2.2

/-- `getInitialFaceColors` from the source.  The source compares the integer
coordinate against ±0.5; on integer inputs `x > 0.5` is `0 < x` and
`x < -0.5` is `x < 0`. -/
def getInitialFaceColors (v : Vec3) : FaceColors :=
  { fx := if 0 < v.1 then "#ff5555" else "#222222"
    fmx := if v.1 < 0 then "#ff9933" else "#222222"
    fy := if 0 < v.2.1 then "#ffffff" else "#222222"
    fmy := if v.2.1 < 0 then "#ffff55" else "#222222"
    fz := if 0 < v.2.2 then "#5555ff" else "#222222"
    fmz := if v.2.2 < 0 then "#55ff55" else "#222222" }

/-- The source's `offsets` array. -/
def offsets : List Int := [-1, 0, 1]

/-- The source's `initialCubes`: the nested x/y/z loops with the incrementing
`idCounter`, realised as an enumerated flat product in the same order. -/
def initialCubes : List CubeCell :=
  ((offsets.flatMap fun x => offsets.flatMap fun y => offsets.map fun z =>
    ((x, y, z) : Vec3))).enum.map fun p =>
      { id := p.1, index := p.2, faces := getInitialFaceColors p.2 }

/-- `rotateAroundX90` from the source: (x, y, z) to (x, -z, y). -/
def rotateAroundX90 (v : Vec3) : Vec3 := (v.1, -v.2.2, v.2.1)

/-- `rotateAroundY90` from the source: (x, y, z) to (z, y, -x). -/
def rotateAroundY90 (v : Vec3) : Vec3 := (v.2.2, v.2.1, -v.1)

/-- `rotateAroundZ90` from the source: (x, y, z) to (-y, x, z). -/
def rotateAroundZ90 (v : Vec3) : Vec3 := (-v.2.1, v.1, v.2.2)

/-- `rotateFacesAroundX90` from the source. -/
def rotateFacesAroundX90 (f : FaceColors) : FaceColors :=
  { fx := f.fx, fmx := f.fmx, fy := f.fmz, fmy := f.fz, fz := f.fy, fmz := f.fmy }

/-- `rotateFacesAroundY90` from the source. -/
def rotateFacesAroundY90 (f : FaceColors) : FaceColors :=
  { fx := f.fz, fmx := f.fmz, fy := f.fy, fmy := f.fmy, fz := f.fmx, fmz := f.fx }

/-- `rotateFacesAroundZ90` from the source. -/
def rotateFacesAroundZ90 (f : FaceColors) : FaceColors :=
  { fx := f.fmy, fmx := f.fy, fy := f.fx, fmy := f.fmx, fz := f.fz, fmz := f.fmz }

/-- `rotateIndexOnce` as dispatched inside `applyTurn`. -/
def rotateIndexOnce (a : Fin 3) (v : Vec3) : Vec3 :=
  match a with
  | 0 => rotateAroundX90 v
  | 1 => rotateAroundY90 v
  | 2 => rotateAroundZ90 v

/-- `rotateFacesOnce` as dispatched inside `applyTurn`. -/
def rotateFacesOnce (a : Fin 3) (f : FaceColors) : FaceColors :=
  match a with
  | 0 => rotateFacesAroundX90 f
  | 1 => rotateFacesAroundY90 f
  | 2 => rotateFacesAroundZ90 f

/-- One pass of `applyTurn`'s rotation loop body on a single cell: index and
faces are stepped together, the id is untouched. -/
def turnCellOnce (a : Fin 3) (c : CubeCell) : CubeCell :=
  { c with index := rotateIndexOnce a c.index, faces := rotateFacesOnce a c.faces }

/-- The source's `times = direction === 1 ? 1 : 3`. -/
def movTimes (m : Move) : Nat := if m.direction = 1 then 1 else 3

/-- The per-cell body of `applyTurn`'s `cubes.map`: cells in the selected layer
get the single-step rotation applied `times` times, others pass through. -/
def cellAfterTurn (m : Move) (c : CubeCell) : CubeCell :=
  if compon c.index m.axis = m.layer then (turnCellOnce m.axis)^[movTimes m] c
  else c

/-- `applyTurn` from the source: a pure map over the cell list (the source
returns a fresh array of fresh cell objects and never mutates its input). -/
def applyTurn (cubes : List CubeCell) (m : Move) : List CubeCell :=
  cubes.map (cellAfterTurn m)

/-- `getMoveFromCode` from the source keyboard handler: key code plus the
shift ("prime") flag to an optional `Move`. -/
def getMoveFromCode (code : String) (prime : Bool) : Option Move :=
  let mk : Fin 3 → Int → Int → Move := fun a l b =>
    { axis := a, layer := l, direction := if prime then -b else b }
  match code with
  | "KeyU" => some (mk 1 1 (-1))
  | "KeyD" => some (mk 1 (-1) 1)
  | "KeyL" => some (mk 0 (-1) 1)
  | "KeyR" => some (mk 0 1 (-1))
  | "KeyF" => some (mk 2 1 (-1))
  | "KeyB" => some (mk 2 (-1) 1)
  | "KeyM" => some (mk 0 0 1)
  | "KeyE" => some (mk 1 0 1)
  | "KeyS" => some (mk 2 0 (-1))
  | _ => none

/-- The six face letters of the codec. -/
inductive FaceKey where
  | U | R | F | D | L | B
deriving DecidableEq

/-- The character a face letter contributes to the 54-character string. -/
def faceChar : FaceKey → Char
  | .U => 'U'
  | .R => 'R'
  | .F => 'F'
  | .D => 'D'
  | .L => 'L'
  | .B => 'B'

/-- The source's `findCell` helper inside `buildColorToFaceMap` and
`getSticker`: first cell whose index equals (x, y, z). -/
def findCell (cubes : List CubeCell) (x y z : Int) : Option CubeCell :=
  cubes.find? fun c => c.index.1 == x && c.index.2.1 == y && c.index.2.2 == z

/-- JavaScript `Map.set` on an association list: replace the value of an
existing key in place, otherwise append the pair. -/
def mapSet (m : List (String × FaceKey)) (k : String) (v : FaceKey) :
    List (String × FaceKey) :=
  if m.any (fun p => p.1 == k) then
    m.map (fun p => if p.1 == k then (k, v) else p)
  else m ++ [(k, v)]

/-- JavaScript `Map.get` on the association list. -/
def mapGet (m : List (String × FaceKey)) (k : String) : Option FaceKey :=
  (m.find? (fun p => p.1 == k)).map (·.2)

/-- `keyFromColorMap` from the source: a missing color throws, modelled as
`Except.error`. -/
def keyFromColorMap (m : List (String × FaceKey)) (color : String) :
    Except String FaceKey :=
  match mapGet m color with
  | none => .error ("Unknown sticker color: " ++ color ++ ". Did you build the color map from centers?")
  | some k => .ok k

/-- `buildColorToFaceMap` from the source: read the six center stickers, throw
if a lookup is missing (the source's falsy test also fires on an empty string),
then `Map.set` the six colors in the order U, R, F, D, L, B.  Note the source
performs no duplicate check: `mapSet` silently overwrites an earlier center's
entry when two centers share a color. -/
def buildColorToFaceMap (cubes : List CubeCell) :
    Except String (List (String × FaceKey)) :=
  match (findCell cubes 0 1 0).map (·.faces.fy),
        (findCell cubes 0 (-1) 0).map (·.faces.fmy),
        (findCell cubes 1 0 0).map (·.faces.fx),
        (findCell cubes (-1) 0 0).map (·.faces.fmx),
        (findCell cubes 0 0 1).map (·.faces.fz),
        (findCell cubes 0 0 (-1)).map (·.faces.fmz) with
  | some cU, some cD, some cR, some cL, some cF, some cB =>
    if cU == "" || cD == "" || cR == "" || cL == "" || cF == "" || cB == "" then
      .error "Failed to locate one or more center stickers. Cube state is invalid."
    else
      .ok (mapSet (mapSet (mapSet (mapSet (mapSet (mapSet [] cU .U) cR .R) cF .F) cD .D) cL .L) cB .B)
  | _, _, _, _, _, _ =>
    .error "Failed to locate one or more center stickers. Cube state is invalid."

/-- The exhaustive `switch (face)` inside `getSticker` that picks the slot
color (the dead `#222222` default of the source is unreachable since every
`FaceKey` case assigns). -/
def stickerSlotColor (c : CubeCell) (face : FaceKey) : String :=
  match face with
  | .R => c.faces.fx
  | .L => c.faces.fmx
  | .U => c.faces.fy
  | .D => c.faces.fmy
  | .F => c.faces.fz
  | .B => c.faces.fmz

/-- `getSticker` from the source: locate the cell, read the slot color for the
face being scanned, translate it through the center-derived map; a missing
cell or unmapped color throws. -/
def getSticker (cubes : List CubeCell) (m : List (String × FaceKey))
    (x y z : Int) (face : FaceKey) : Except String FaceKey :=
  match findCell cubes x y z with
  | none => .error ("Missing cell at index (" ++ toString x ++ "," ++ toString y ++ "," ++ toString z ++ ")")
  | some cell => keyFromColorMap m (stickerSlotColor cell face)

/-- Scan positions of `readU`: y = +1, z from -1 to 1, x from -1 to 1. -/
def uScan : List Vec3 :=
  ([-1, 0, 1] : List Int).flatMap fun z => ([-1, 0, 1] : List Int).map fun x => (x, 1, z)

/-- Scan positions of `readD`: y = -1, z from 1 to -1, x from -1 to 1. -/
def dScan : List Vec3 :=
  ([1, 0, -1] : List Int).flatMap fun z => ([-1, 0, 1] : List Int).map fun x => (x, -1, z)

/-- Scan positions of `readF`: z = +1, y from 1 to -1, x from -1 to 1. -/
def fScan : List Vec3 :=
  ([1, 0, -1] : List Int).flatMap fun y => ([-1, 0, 1] : List Int).map fun x => (x, y, 1)

/-- Scan positions of `readB`: z = -1, y from 1 to -1, x from 1 to -1. -/
def bScan : List Vec3 :=
  ([1, 0, -1] : List Int).flatMap fun y => ([1, 0, -1] : List Int).map fun x => (x, y, -1)

/-- Scan positions of `readR`: x = +1, y from 1 to -1, z from 1 to -1. -/
def rScan : List Vec3 :=
  ([1, 0, -1] : List Int).flatMap fun y => ([1, 0, -1] : List Int).map fun z => (1, y, z)

/-- Scan positions of `readL`: x = -1, y from 1 to -1, z from -1 to 1. -/
def lScan : List Vec3 :=
  ([1, 0, -1] : List Int).flatMap fun y => ([-1, 0, 1] : List Int).map fun z => (-1, y, z)

/-- The face readers' push loop: collect each scanned sticker, propagating the
first thrown error. -/
def scanMap (g : Vec3 → Except String FaceKey) : List Vec3 → Except String (List FaceKey)
  | [] => .ok []
  | p :: rest =>
    match g p with
    | .error e => .error e
    | .ok b =>
      match scanMap g rest with
      | .error e => .error e
      | .ok bs => .ok (b :: bs)

/-- One `readU`/`readR`/... call: scan the face's nine positions in order. -/
def readFace (cubes : List CubeCell) (m : List (String × FaceKey))
    (face : FaceKey) (scan : List Vec3) : Except String (List FaceKey) :=
  scanMap (fun p => getSticker cubes m p.1 p.2.1 p.2.2 face) scan

/-- `cubeToFaceletsURFDLB` from the source: build the center color map, read
the six faces in U, R, F, D, L, B order, join the 54 letters.  Any thrown
error propagates; nothing is ever silently defaulted past this chain. -/
def cubeToFaceletsURFDLB (cubes : List CubeCell) : Except String String :=
  match buildColorToFaceMap cubes with
  | .error e => .error e
  | .ok m =>
  match readFace cubes m .U uScan with
  | .error e => .error e
  | .ok u =>
  match readFace cubes m .R rScan with
  | .error e => .error e
  | .ok r =>
  match readFace cubes m .F fScan with
  | .error e => .error e
  | .ok f =>
  match readFace cubes m .D dScan with
  | .error e => .error e
  | .ok d =>
  match readFace cubes m .L lScan with
  | .error e => .error e
  | .ok l =>
  match readFace cubes m .B bScan with
  | .error e => .error e
  | .ok b => .ok (String.mk ((u ++ r ++ f ++ d ++ l ++ b).map faceChar))

/-- All 27 legal positions, the product of `offsets` with itself three times. -/
def allPositions : List Vec3 :=
  offsets.flatMap fun x => offsets.flatMap fun y => offsets.map fun z => (x, y, z)

/-- The action of a move on a position alone (the index component of
`cellAfterTurn`). -/
def posMap (m : Move) (v : Vec3) : Vec3 :=
  if compon v m.axis = m.layer then (rotateIndexOnce m.axis)^[movTimes m] v else v

/-- Placeholder cell used as the `getD` default when stating element-wise
properties of `applyTurn`'s output list. -/
def dummyCell : CubeCell := { id := 0, index := (0, 0, 0), faces := ⟨"", "", "", "", "", ""⟩ }

/-- The six sticker colors of a cell as a list, in slot order. -/
def facesList (f : FaceColors) : List String := [f.fx, f.fmx, f.fy, f.fmy, f.fz, f.fmz]

/-- A `Move` within the domains declared by the source's `Move` type. -/
def ValidMove (m : Move) : Prop :=
  (m.layer = -1 ∨ m.layer = 0 ∨ m.layer = 1) ∧ (m.direction = 1 ∨ m.direction = -1)

/-- States reachable from the solved initial state by sequences of moves. -/
inductive Reachable : List CubeCell → Prop where
  | init : Reachable initialCubes
  | step {s : List CubeCell} {m : Move} : Reachable s → ValidMove m → Reachable (applyTurn s m)

/-- The six fixed face-center positions. -/
def centerPositions : List Vec3 := [(1,0,0), (-1,0,0), (0,1,0), (0,-1,0), (0,0,1), (0,0,-1)]

/-- Outward-facing sticker color of a cell sitting at one of the six center
positions (empty elsewhere); used to state the center-invariance claim. -/
def outwardColor (c : CubeCell) : String :=
  if c.index = ((1,0,0) : Vec3) then c.faces.fx
  else if c.index = ((-1,0,0) : Vec3) then c.faces.fmx
  else if c.index = ((0,1,0) : Vec3) then c.faces.fy
  else if c.index = ((0,-1,0) : Vec3) then c.faces.fmy
  else if c.index = ((0,0,1) : Vec3) then c.faces.fz
  else if c.index = ((0,0,-1) : Vec3) then c.faces.fmz
  else ""

/-- Face-and-scan pairs of the codec, in the order the encoder reads them. -/
def faceScans : List (FaceKey × List Vec3) :=
  [(.U, uScan), (.R, rScan), (.F, fScan), (.D, dScan), (.L, lScan), (.B, bScan)]

/-- The solved state with every down-face sticker recolored to the up-face
white, making the U and D centers share one color. -/
def dupCubes : List CubeCell :=
  initialCubes.map fun c =>
    if c.index.2.1 = -1 then { c with faces := { c.faces with fmy := "#ffffff" } } else c

/-- The R, U, R-prime, U-prime key presses, translated through
`getMoveFromCode` exactly as the keyboard handler would. -/
def sexyMoves : List Move :=
  ([("KeyR", false), ("KeyU", false), ("KeyR", true), ("KeyU", true)] :
    List (String × Bool)).filterMap fun p => getMoveFromCode p.1 p.2

instance : DecidableEq (Except String String) := fun a b =>
  match a, b with
  | .ok x, .ok y => if h : x = y then .isTrue (by rw [h]) else .isFalse (by simp [h])
  | .error x, .error y => if h : x = y then .isTrue (by rw [h]) else .isFalse (by simp [h])
  | .ok _, .error _ => .isFalse (by simp)
  | .error _, .ok _ => .isFalse (by simp)

/-- A cell's single-step rotation leaves the coordinate along the rotation
axis unchanged. -/
theorem compon_rotateIndexOnce (a : Fin 3) (v : Vec3) :
    compon (rotateIndexOnce a v) a = compon v a := by
  fin_cases a <;> rfl

/-- Iterating the single-step rotation leaves the coordinate along the
rotation axis unchanged. -/
theorem compon_iter (a : Fin 3) (t : Nat) (v : Vec3) :
    compon ((rotateIndexOnce a)^[t] v) a = compon v a := by
  induction t generalizing v with
  | zero => rfl
  | succ n ih => rw [Function.iterate_succ_apply, ih, compon_rotateIndexOnce]

/-- The index of an iterated cell step is the iterated index step. -/
theorem index_iter (a : Fin 3) (t : Nat) (c : CubeCell) :
    ((turnCellOnce a)^[t] c).index = (rotateIndexOnce a)^[t] c.index := by
  induction t generalizing c with
  | zero => rfl
  | succ n ih => simp [Function.iterate_succ_apply, ih, turnCellOnce]

/-- Four quarter-turn steps restore a cell exactly. -/
theorem turnCellOnce_four (a : Fin 3) (c : CubeCell) : (turnCellOnce a)^[4] c = c := by
  obtain ⟨i, ⟨x, y, z⟩, f⟩ := c
  fin_cases a <;>
    simp [turnCellOnce, rotateIndexOnce, rotateFacesOnce, rotateAroundX90, rotateAroundY90,
      rotateAroundZ90, rotateFacesAroundX90, rotateFacesAroundY90, rotateFacesAroundZ90,
      Function.iterate_succ, Function.iterate_zero]

/-- A move followed by the move with the same axis and layer and the opposite
direction restores every cell. -/
theorem cellAfterTurn_inv (m : Move) (hd : m.direction = 1 ∨ m.direction = -1) (c : CubeCell) :
    cellAfterTurn ⟨m.axis, m.layer, -m.direction⟩ (cellAfterTurn m c) = c := by
  unfold cellAfterTurn
  by_cases h : compon c.index m.axis = m.layer
  · rw [if_pos h]
    have hcomp : compon ((turnCellOnce m.axis)^[movTimes m] c).index m.axis = m.layer := by
      rw [index_iter, compon_iter, h]
    rw [if_pos hcomp]
    rw [← Function.iterate_add_apply]
    have h4 : movTimes (⟨m.axis, m.layer, -m.direction⟩ : Move) + movTimes m = 4 := by
      rcases hd with h1 | h1 <;> simp [movTimes, h1]
    rw [h4, turnCellOnce_four]
  · rw [if_neg h, if_neg h]

/-- The per-cell move body fixes the placeholder cell, so `getD`-based
element statements extend past the end of the list. -/
theorem cellAfterTurn_dummy (m : Move) : cellAfterTurn m dummyCell = dummyCell := by
  obtain ⟨a, l, d⟩ := m
  unfold cellAfterTurn movTimes
  dsimp only
  split
  · split <;> fin_cases a <;> rfl
  · rfl

/-- `getD` commutes with `map` for a function fixing the default element. -/
theorem getD_map_fixed (f : CubeCell → CubeCell) (l : List CubeCell)
    (hf : f dummyCell = dummyCell) (i : Nat) :
    (l.map f).getD i dummyCell = f (l.getD i dummyCell) := by
  rw [List.getD_eq_getElem?_getD, List.getD_eq_getElem?_getD, List.getElem?_map]
  cases l[i]? <;> simp [hf]

/-- Each single-step sticker rotation permutes the six slot colors. -/
theorem rotateFacesOnce_perm (a : Fin 3) (f : FaceColors) :
    (facesList (rotateFacesOnce a f)).Perm (facesList f) := by
  fin_cases a <;>
    (apply List.perm_iff_count.mpr
     intro s
     simp [facesList, rotateFacesOnce, rotateFacesAroundX90, rotateFacesAroundY90,
       rotateFacesAroundZ90, List.count_cons]
     ring)

/-- Iterated cell steps permute the six slot colors. -/
theorem facesList_iter_perm (a : Fin 3) (t : Nat) (c : CubeCell) :
    (facesList ((turnCellOnce a)^[t] c).faces).Perm (facesList c.faces) := by
  induction t generalizing c with
  | zero => exact List.Perm.refl _
  | succ n ih =>
    rw [Function.iterate_succ_apply]
    exact (ih (turnCellOnce a c)).trans (rotateFacesOnce_perm a c.faces)

/-- The per-cell move body keeps the cell id. -/
theorem cellAfterTurn_id (m : Move) (c : CubeCell) : (cellAfterTurn m c).id = c.id := by
  unfold cellAfterTurn
  split
  · have : ∀ t c2, ((turnCellOnce m.axis)^[t] c2 : CubeCell).id = c2.id := by
      intro t
      induction t with
      | zero => intro c2; rfl
      | succ n ih => intro c2; rw [Function.iterate_succ_apply]; exact ih (turnCellOnce m.axis c2)
    exact this (movTimes m) c
  · rfl

/-- The id list of a state is untouched by a move. -/
theorem map_id_applyTurn (s : List CubeCell) (m : Move) :
    (applyTurn s m).map (fun c => c.id) = s.map (fun c => c.id) := by
  unfold applyTurn
  rw [List.map_map]
  exact List.map_congr_left fun c _ => cellAfterTurn_id m c

/-- The index of the per-cell move body is `posMap` of the index. -/
theorem cellAfterTurn_index (m : Move) (c : CubeCell) :
    (cellAfterTurn m c).index = posMap m c.index := by
  unfold cellAfterTurn posMap
  split
  · rw [index_iter]
  · rfl

/-- The position list of a move's output is the pointwise `posMap` image. -/
theorem map_index_applyTurn (cubes : List CubeCell) (m : Move) :
    (applyTurn cubes m).map (fun c => c.index) = (cubes.map (fun c => c.index)).map (posMap m) := by
  simp only [applyTurn, List.map_map]
  apply List.map_congr_left
  intro c _
  exact cellAfterTurn_index m c

/-- Case-checked core fact: every in-domain layer action permutes the full
position cube. -/
theorem posMap_perm_aux (a : Fin 3) (l : Int) (hl : l = -1 ∨ l = 0 ∨ l = 1)
    (t : Nat) (ht : t = 1 ∨ t = 3) :
    ((allPositions.map fun v => if compon v a = l then (rotateIndexOnce a)^[t] v else v : List Vec3) :
      Multiset Vec3) = (allPositions : Multiset Vec3) := by
  fin_cases a <;> rcases hl with h | h | h <;> subst h <;> rcases ht with h | h <;> subst h <;> decide

/-- For a state holding the 27 distinct legal positions, any in-domain move
preserves the multiset of positions. -/
theorem positions_perm (cubes : List CubeCell) (m : Move)
    (hlen : cubes.length = 27)
    (hnd : (cubes.map (fun c => c.index)).Nodup)
    (hmem : ∀ c ∈ cubes, c.index ∈ allPositions)
    (hl : m.layer = -1 ∨ m.layer = 0 ∨ m.layer = 1) :
    (((applyTurn cubes m).map (fun c => c.index) : List Vec3) : Multiset Vec3) =
      ((cubes.map (fun c => c.index) : List Vec3) : Multiset Vec3) := by
  have hsub : (cubes.map (fun c => c.index)) ⊆ allPositions := by
    intro v hv
    rcases List.mem_map.mp hv with ⟨c, hc, rfl⟩
    exact hmem c hc
  have hperm : (cubes.map (fun c => c.index)).Perm allPositions := by
    apply (List.subperm_of_subset hnd hsub).perm_of_length_le
    simp [hlen]
    decide
  have hML : ((cubes.map (fun c => c.index) : List Vec3) : Multiset Vec3) = (allPositions : Multiset Vec3) :=
    Multiset.coe_eq_coe.mpr hperm
  rw [map_index_applyTurn]
  have hmapcoe : (((cubes.map (fun c => c.index)).map (posMap m) : List Vec3) : Multiset Vec3) =
      Multiset.map (posMap m) ((cubes.map (fun c => c.index) : List Vec3) : Multiset Vec3) := by
    simp
  rw [hmapcoe, hML]
  have hback : Multiset.map (posMap m) (allPositions : Multiset Vec3) =
      ((allPositions.map (posMap m) : List Vec3) : Multiset Vec3) := by simp
  rw [hback]
  have hmt : movTimes m = 1 ∨ movTimes m = 3 := by
    unfold movTimes
    split
    · exact Or.inl rfl
    · exact Or.inr rfl
  exact posMap_perm_aux m.axis m.layer hl (movTimes m) hmt

/-- An outer-layer move fixes the position and outward color of any cell that
sits at a center position. -/
theorem center_fixed_cell (m : Move) (hl : m.layer = -1 ∨ m.layer = 1) (c : CubeCell)
    (hc : c.index ∈ centerPositions) :
    (cellAfterTurn m c).index = c.index ∧ outwardColor (cellAfterTurn m c) = outwardColor c := by
  obtain ⟨a, l, d⟩ := m
  obtain ⟨i, v, f⟩ := c
  simp only [centerPositions, List.mem_cons, List.not_mem_nil, or_false] at hc
  unfold cellAfterTurn movTimes
  dsimp only at *
  have hd : (if d = 1 then 1 else 3) = 1 ∨ (if d = 1 then 1 else 3) = 3 := by
    split
    · exact Or.inl rfl
    · exact Or.inr rfl
  rcases hc with h | h | h | h | h | h <;> subst h <;>
    fin_cases a <;> rcases hl with h | h <;> subst h <;>
    rcases hd with h | h <;> rw [h] <;>
    simp [compon, turnCellOnce, rotateIndexOnce, rotateFacesOnce, rotateAroundX90,
      rotateAroundY90, rotateAroundZ90, rotateFacesAroundX90, rotateFacesAroundY90,
      rotateFacesAroundZ90, outwardColor, Function.iterate_succ, Function.iterate_zero,
      neg_zero, Prod.ext_iff]

/-- A successful scan of a position list means every position scanned
successfully. -/
theorem scanMap_ok_forall (g : Vec3 → Except String FaceKey) (l : List Vec3)
    (bs : List FaceKey) (h : scanMap g l = .ok bs) :
    ∀ p ∈ l, ∃ b, g p = .ok b := by
  induction l generalizing bs with
  | nil => intro p hp; cases hp
  | cons q rest ih =>
    intro p hp
    unfold scanMap at h
    cases hg : g q with
    | error e => rw [hg] at h; cases h
    | ok b =>
      rw [hg] at h
      cases hr : scanMap g rest with
      | error e => rw [hr] at h; cases h
      | ok bs2 =>
        rcases List.mem_cons.mp hp with rfl | hp2
        · exact ⟨b, hg⟩
        · exact ih bs2 hr p hp2

/-- A successful sticker read means the cell existed and its color was in the
center map. -/
theorem getSticker_ok (cubes : List CubeCell) (m : List (String × FaceKey))
    (x y z : Int) (face : FaceKey) (k : FaceKey)
    (h : getSticker cubes m x y z face = .ok k) :
    ∃ cell, findCell cubes x y z = some cell ∧
      mapGet m (stickerSlotColor cell face) = some k := by
  unfold getSticker at h
  split at h
  · cases h
  · rename_i cell hf
    unfold keyFromColorMap at h
    split at h
    · cases h
    · rename_i k2 hm
      cases h
      exact ⟨cell, hf, hm⟩

/-- The default branch of the key dispatch: unknown codes map to no move. -/
theorem getMoveFromCode_default (prime : Bool) (code : String)
    (h : code ∉ (["KeyU", "KeyD", "KeyL", "KeyR", "KeyF", "KeyB", "KeyM", "KeyE", "KeyS"] : List String)) :
    getMoveFromCode code prime = none := by
  unfold getMoveFromCode
  split <;> simp_all

/-- Claim C1: `applyTurn` returns a state of the same length in which exactly
the cells whose position component along the move's axis equals the move's
layer have the kernel's single quarter-turn step applied once for the
clockwise direction and three times for the counterclockwise direction, and
every other cell is returned unchanged.  (The embedding is a pure map over an
immutable list, so the input state is never mutated.) -/
theorem applyTurn_layer_rule (cubes : List CubeCell) (m : Move) :
    (applyTurn cubes m).length = cubes.length ∧
    ∀ i : Nat,
      (compon (cubes.getD i dummyCell).index m.axis ≠ m.layer →
        (applyTurn cubes m).getD i dummyCell = cubes.getD i dummyCell) ∧
      (compon (cubes.getD i dummyCell).index m.axis = m.layer →
        (m.direction = 1 →
          (applyTurn cubes m).getD i dummyCell = turnCellOnce m.axis (cubes.getD i dummyCell)) ∧
        (m.direction = -1 →
          (applyTurn cubes m).getD i dummyCell =
            (turnCellOnce m.axis)^[3] (cubes.getD i dummyCell))) := by
  constructor
  · simp [applyTurn]
  · intro i
    have hbase : (applyTurn cubes m).getD i dummyCell = cellAfterTurn m (cubes.getD i dummyCell) :=
      getD_map_fixed (cellAfterTurn m) cubes (cellAfterTurn_dummy m) i
    constructor
    · intro hne
      rw [hbase]
      unfold cellAfterTurn
      rw [if_neg hne]
    · intro heq
      constructor
      · intro hdir
        rw [hbase]
        unfold cellAfterTurn movTimes
        rw [if_pos heq, hdir]
        simp
      · intro hdir
        rw [hbase]
        unfold cellAfterTurn movTimes
        rw [if_pos heq, hdir]
        simp

/-- Witness for C1 at the solved state: the corner at (-1,-1,-1) lies in the
layer of the move with axis X and layer -1 and is stepped once; the corner at
(1,1,1) lies outside and passes through. -/
theorem applyTurn_layer_rule_witness :
    (applyTurn initialCubes ⟨0, -1, 1⟩).getD 0 dummyCell =
      turnCellOnce 0 (initialCubes.getD 0 dummyCell) ∧
    (applyTurn initialCubes ⟨0, -1, 1⟩).getD 26 dummyCell = initialCubes.getD 26 dummyCell := by
  constructor
  · exact (((applyTurn_layer_rule initialCubes ⟨0, -1, 1⟩).2 0).2 (by decide)).1 (by decide)
  · exact ((applyTurn_layer_rule initialCubes ⟨0, -1, 1⟩).2 26).1 (by decide)

/-- Claim C2: the single-step rotation kernel is total and pure (it is a Lean
function) and implements exactly the right-hand-rule quarter-turn maps on
positions and on the 6-slot sticker vector indexed [+X,-X,+Y,-Y,+Z,-Z]; the
two slots parallel to the rotation axis are unchanged in every case. -/
theorem rotation_kernel_step_spec :
    (∀ x y z : Int,
      rotateAroundX90 (x, y, z) = (x, -z, y) ∧
      rotateAroundY90 (x, y, z) = (z, y, -x) ∧
      rotateAroundZ90 (x, y, z) = (-y, x, z)) ∧
    (∀ f : FaceColors,
      rotateFacesAroundX90 f = ⟨f.fx, f.fmx, f.fmz, f.fz, f.fy, f.fmy⟩ ∧
      rotateFacesAroundY90 f = ⟨f.fz, f.fmz, f.fy, f.fmy, f.fmx, f.fx⟩ ∧
      rotateFacesAroundZ90 f = ⟨f.fmy, f.fy, f.fx, f.fmx, f.fz, f.fmz⟩ ∧
      (rotateFacesAroundX90 f).fx = f.fx ∧ (rotateFacesAroundX90 f).fmx = f.fmx ∧
      (rotateFacesAroundY90 f).fy = f.fy ∧ (rotateFacesAroundY90 f).fmy = f.fmy ∧
      (rotateFacesAroundZ90 f).fz = f.fz ∧ (rotateFacesAroundZ90 f).fmz = f.fmz) :=
  ⟨fun _ _ _ => ⟨rfl, rfl, rfl⟩,
   fun _ => ⟨rfl, rfl, rfl, rfl, rfl, rfl, rfl, rfl, rfl⟩⟩

/-- Claim C3: the key-code-to-Move mapping is exactly the table U:(Y,+1,-1),
D:(Y,-1,+1), L:(X,-1,+1), R:(X,+1,-1), F:(Z,+1,-1), B:(Z,-1,+1), M:(X,0,same
sign as L), E:(Y,0,same sign as D), S:(Z,0,same sign as F), with the prime
flag inverting the direction sign, and no other code maps to a move. -/
theorem getMoveFromCode_table (prime : Bool) :
    (getMoveFromCode "KeyU" prime = some ⟨1, 1, if prime then 1 else -1⟩ ∧
     getMoveFromCode "KeyD" prime = some ⟨1, -1, if prime then -1 else 1⟩ ∧
     getMoveFromCode "KeyL" prime = some ⟨0, -1, if prime then -1 else 1⟩ ∧
     getMoveFromCode "KeyR" prime = some ⟨0, 1, if prime then 1 else -1⟩ ∧
     getMoveFromCode "KeyF" prime = some ⟨2, 1, if prime then 1 else -1⟩ ∧
     getMoveFromCode "KeyB" prime = some ⟨2, -1, if prime then -1 else 1⟩ ∧
     getMoveFromCode "KeyM" prime = some ⟨0, 0, if prime then -1 else 1⟩ ∧
     getMoveFromCode "KeyE" prime = some ⟨1, 0, if prime then -1 else 1⟩ ∧
     getMoveFromCode "KeyS" prime = some ⟨2, 0, if prime then 1 else -1⟩) ∧
    ∀ code : String,
      code ∉ (["KeyU", "KeyD", "KeyL", "KeyR", "KeyF", "KeyB", "KeyM", "KeyE", "KeyS"] : List String) →
      getMoveFromCode code prime = none := by
  constructor
  · cases prime <;> decide
  · exact getMoveFromCode_default prime

/-- Witness for C3: a code outside the table yields no move. -/
theorem getMoveFromCode_table_witness : getMoveFromCode "KeyX" false = none :=
  (getMoveFromCode_table false).2 "KeyX" (by decide)

/-- Claim C4: on a state whose 27 cells carry pairwise-distinct positions from
the legal index cube, any in-domain move preserves the multiset (hence the
set) of the 27 distinct positions, and each output cell carries the same
multiset of six sticker colors as the input cell it came from. -/
theorem applyTurn_position_bijection_color_multisets (cubes : List CubeCell) (m : Move)
    (hlen : cubes.length = 27)
    (hnd : (cubes.map (fun c => c.index)).Nodup)
    (hmem : ∀ c ∈ cubes, c.index ∈ allPositions)
    (hl : m.layer = -1 ∨ m.layer = 0 ∨ m.layer = 1)
    (_hdir : m.direction = 1 ∨ m.direction = -1) :
    (((applyTurn cubes m).map (fun c => c.index) : List Vec3) : Multiset Vec3) =
      ((cubes.map (fun c => c.index) : List Vec3) : Multiset Vec3) ∧
    ((applyTurn cubes m).map (fun c => c.index)).Nodup ∧
    ∀ i : Nat,
      ((facesList ((applyTurn cubes m).getD i dummyCell).faces : List String) : Multiset String) =
        ((facesList (cubes.getD i dummyCell).faces : List String) : Multiset String) := by
  have hpos := positions_perm cubes m hlen hnd hmem hl
  refine ⟨hpos, ?_, ?_⟩
  · exact (Multiset.coe_eq_coe.mp hpos).nodup_iff.mpr hnd
  · intro i
    have hbase : (applyTurn cubes m).getD i dummyCell = cellAfterTurn m (cubes.getD i dummyCell) :=
      getD_map_fixed (cellAfterTurn m) cubes (cellAfterTurn_dummy m) i
    rw [hbase]
    apply Multiset.coe_eq_coe.mpr
    unfold cellAfterTurn
    split
    · exact facesList_iter_perm m.axis (movTimes m) (cubes.getD i dummyCell)
    · exact List.Perm.refl _

/-- Witness for C4: the solved state satisfies the distinctness hypotheses and
the U move preserves its position multiset and the color multiset of cell 0. -/
theorem applyTurn_position_bijection_color_multisets_witness :
    (initialCubes.length = 27 ∧ (initialCubes.map (fun c => c.index)).Nodup) ∧
    (((applyTurn initialCubes ⟨1, 1, -1⟩).map (fun c => c.index) : List Vec3) : Multiset Vec3) =
      ((initialCubes.map (fun c => c.index) : List Vec3) : Multiset Vec3) :=
  ⟨by decide,
   (applyTurn_position_bijection_color_multisets initialCubes ⟨1, 1, -1⟩ (by decide) (by decide)
     (by decide) (by decide) (by decide)).1⟩

/-- Claim C5 (amended): whenever encoding succeeds, the center map was built
(every center lookup succeeded) and every scanned position held a cell whose
relevant sticker color was in the center-derived map — equivalently, a missing
center, a missing scanned cell, or an unmapped scanned color always makes the
encoder fail with an error rather than silently defaulting.  (The duplicate-
center clause of the original claim is refuted separately: `mapSet` just
overwrites, see the counterexample.) -/
theorem encode_ok_implies_wellformed (cubes : List CubeCell) (s : String)
    (h : cubeToFaceletsURFDLB cubes = .ok s) :
    ∃ m, buildColorToFaceMap cubes = .ok m ∧
      ∀ pr ∈ faceScans, ∀ p ∈ pr.2, ∃ cell,
        findCell cubes p.1 p.2.1 p.2.2 = some cell ∧
        ∃ k, mapGet m (stickerSlotColor cell pr.1) = some k := by
  have key : ∀ m face scan bs, readFace cubes m face scan = .ok bs →
      ∀ q ∈ scan, ∃ cell, findCell cubes q.1 q.2.1 q.2.2 = some cell ∧
        ∃ k, mapGet m (stickerSlotColor cell face) = some k := by
    intro m face scan bs hok q hq
    rcases scanMap_ok_forall _ scan bs hok q hq with ⟨k, hk⟩
    rcases getSticker_ok cubes m q.1 q.2.1 q.2.2 face k hk with ⟨cell, hc1, hc2⟩
    exact ⟨cell, hc1, k, hc2⟩
  unfold cubeToFaceletsURFDLB at h
  split at h
  · cases h
  rename_i m hb
  split at h
  · cases h
  rename_i u hu
  split at h
  · cases h
  rename_i r hr
  split at h
  · cases h
  rename_i f hf
  split at h
  · cases h
  rename_i d hd
  split at h
  · cases h
  rename_i l hl
  split at h
  · cases h
  rename_i b hbb
  refine ⟨m, hb, ?_⟩
  intro pr hpr p hp
  simp only [faceScans, List.mem_cons, List.not_mem_nil, or_false] at hpr
  rcases hpr with rfl | rfl | rfl | rfl | rfl | rfl
  · exact key m .U uScan u hu p hp
  · exact key m .R rScan r hr p hp
  · exact key m .F fScan f hf p hp
  · exact key m .D dScan d hd p hp
  · exact key m .L lScan l hl p hp
  · exact key m .B bScan b hbb p hp

/-- Witness for C5: the solved state encodes successfully, so all its lookups
succeed. -/
theorem encode_ok_implies_wellformed_witness :
    cubeToFaceletsURFDLB initialCubes =
      .ok "UUUUUUUUURRRRRRRRRFFFFFFFFFDDDDDDDDDLLLLLLLLLBBBBBBBBB" ∧
    ∃ m, buildColorToFaceMap initialCubes = .ok m ∧
      ∀ pr ∈ faceScans, ∀ p ∈ pr.2, ∃ cell,
        findCell initialCubes p.1 p.2.1 p.2.2 = some cell ∧
        ∃ k, mapGet m (stickerSlotColor cell pr.1) = some k :=
  ⟨by decide,
   encode_ok_implies_wellformed initialCubes
     "UUUUUUUUURRRRRRRRRFFFFFFFFFDDDDDDDDDLLLLLLLLLBBBBBBBBB" (by decide)⟩

/-- Counterexample for C5 as stated: in `dupCubes` the U and D centers share
the color white, yet the encoder succeeds (the later `mapSet` silently
overwrote white's label with D), so duplicate center colors are NOT reported
as a state-invalid error. -/
theorem duplicate_center_colors_encode_ok :
    (findCell dupCubes 0 1 0).map (fun c => c.faces.fy) = some "#ffffff" ∧
    (findCell dupCubes 0 (-1) 0).map (fun c => c.faces.fmy) = some "#ffffff" ∧
    cubeToFaceletsURFDLB dupCubes =
      .ok "DDDDDDDDDRRRRRRRRRFFFFFFFFFDDDDDDDDDLLLLLLLLLBBBBBBBBB" := by
  refine ⟨by decide, by decide, by decide⟩

/-- Claim C6: encoding the solved initial state yields the fixed 54-character
reference string under face order U,R,F,D,L,B, and each of the six symbols
appears exactly nine times in it. -/
theorem solved_state_facelets :
    cubeToFaceletsURFDLB initialCubes =
      .ok "UUUUUUUUURRRRRRRRRFFFFFFFFFDDDDDDDDDLLLLLLLLLBBBBBBBBB" ∧
    ("UUUUUUUUURRRRRRRRRFFFFFFFFFDDDDDDDDDLLLLLLLLLBBBBBBBBB" : String).length = 54 ∧
    ("UUUUUUUUURRRRRRRRRFFFFFFFFFDDDDDDDDDLLLLLLLLLBBBBBBBBB" : String).toList.count 'U' = 9 ∧
    ("UUUUUUUUURRRRRRRRRFFFFFFFFFDDDDDDDDDLLLLLLLLLBBBBBBBBB" : String).toList.count 'R' = 9 ∧
    ("UUUUUUUUURRRRRRRRRFFFFFFFFFDDDDDDDDDLLLLLLLLLBBBBBBBBB" : String).toList.count 'F' = 9 ∧
    ("UUUUUUUUURRRRRRRRRFFFFFFFFFDDDDDDDDDLLLLLLLLLBBBBBBBBB" : String).toList.count 'D' = 9 ∧
    ("UUUUUUUUURRRRRRRRRFFFFFFFFFDDDDDDDDDLLLLLLLLLBBBBBBBBB" : String).toList.count 'L' = 9 ∧
    ("UUUUUUUUURRRRRRRRRFFFFFFFFFDDDDDDDDDLLLLLLLLLBBBBBBBBB" : String).toList.count 'B' = 9 := by
  refine ⟨by decide, by decide, by decide, by decide, by decide, by decide, by decide, by decide⟩

/-- Claim C7: on any reachable state, a move followed by its inverse (same
axis and layer, opposite direction) restores the state exactly — every cell
keeps its position and its full 6-slot sticker vector. -/
theorem move_then_inverse_identity (cubes : List CubeCell) (_hr : Reachable cubes) (m : Move)
    (hd : m.direction = 1 ∨ m.direction = -1) :
    applyTurn (applyTurn cubes m) ⟨m.axis, m.layer, -m.direction⟩ = cubes := by
  unfold applyTurn
  rw [List.map_map]
  calc cubes.map (cellAfterTurn ⟨m.axis, m.layer, -m.direction⟩ ∘ cellAfterTurn m)
      = cubes.map id := List.map_congr_left fun c _ => cellAfterTurn_inv m hd c
    _ = cubes := List.map_id cubes

/-- Witness for C7: R then R-prime on the solved state is the identity. -/
theorem move_then_inverse_identity_witness :
    Reachable initialCubes ∧
    applyTurn (applyTurn initialCubes ⟨0, 1, -1⟩) ⟨0, 1, -(-1 : Int)⟩ = initialCubes :=
  ⟨Reachable.init,
   move_then_inverse_identity initialCubes Reachable.init ⟨0, 1, -1⟩ (by decide)⟩

/-- Counterexample for C8 as stated: applying the R, U, R-prime, U-prime
sequence four times (16 moves) to the solved state does NOT return the solved
state — the sequence has order six on the cube group, not four. -/
theorem sexy_four_not_identity :
    (sexyMoves ++ sexyMoves ++ sexyMoves ++ sexyMoves).foldl applyTurn initialCubes ≠
      initialCubes := by
  decide

/-- Claim C8 (amended): the R, U, R-prime, U-prime key sequence, translated
through `getMoveFromCode`, is the four moves (X,+1,-1), (Y,+1,-1), (X,+1,+1),
(Y,+1,+1), and applying it six times in succession (24 moves) returns the
solved state to itself. -/
theorem sexy_six_identity :
    sexyMoves = ([⟨0, 1, -1⟩, ⟨1, 1, -1⟩, ⟨0, 1, 1⟩, ⟨1, 1, 1⟩] : List Move) ∧
    (sexyMoves ++ sexyMoves ++ sexyMoves ++ sexyMoves ++ sexyMoves ++ sexyMoves).foldl
      applyTurn initialCubes = initialCubes := by
  refine ⟨by decide, by decide⟩

/-- Counterexample for C9 as stated: the middle-slice move M (axis X, layer 0,
direction 1) displaces the up-face center cell of the solved state from
(0,1,0) to (0,0,1), and the cell then found at the center position (0,1,0)
shows the back face's green instead of white, so middle-slice moves do not
keep center cells fixed. -/
theorem middle_slice_displaces_center :
    (initialCubes.getD 16 dummyCell).index = ((0, 1, 0) : Vec3) ∧
    ((0, 1, 0) : Vec3) ∈ centerPositions ∧
    ((applyTurn initialCubes ⟨0, 0, 1⟩).getD 16 dummyCell).index = ((0, 0, 1) : Vec3) ∧
    (findCell initialCubes 0 1 0).map outwardColor = some "#ffffff" ∧
    (findCell (applyTurn initialCubes ⟨0, 0, 1⟩) 0 1 0).map outwardColor = some "#55ff55" := by
  refine ⟨by decide, by decide, by decide, by decide, by decide⟩

/-- Claim C9 (amended): for every OUTER-layer move (layer -1 or +1) applied to
a reachable state, every cell sitting at one of the six center positions keeps
its position and its outward-facing sticker color; middle-slice moves (layer
0) do move center cells, see the counterexample. -/
theorem outer_move_fixes_centers (cubes : List CubeCell) (_hr : Reachable cubes)
    (m : Move) (hl : m.layer = -1 ∨ m.layer = 1) (i : Nat)
    (hc : (cubes.getD i dummyCell).index ∈ centerPositions) :
    ((applyTurn cubes m).getD i dummyCell).index = (cubes.getD i dummyCell).index ∧
    outwardColor ((applyTurn cubes m).getD i dummyCell) =
      outwardColor (cubes.getD i dummyCell) := by
  have hbase : (applyTurn cubes m).getD i dummyCell = cellAfterTurn m (cubes.getD i dummyCell) :=
    getD_map_fixed (cellAfterTurn m) cubes (cellAfterTurn_dummy m) i
  rw [hbase]
  exact center_fixed_cell m hl _ hc

/-- Witness for C9: the R move (axis X, layer +1) fixes the right-face center
cell of the solved state. -/
theorem outer_move_fixes_centers_witness :
    ((initialCubes.getD 22 dummyCell).index ∈ centerPositions) ∧
    ((applyTurn initialCubes ⟨0, 1, -1⟩).getD 22 dummyCell).index =
      (initialCubes.getD 22 dummyCell).index ∧
    outwardColor ((applyTurn initialCubes ⟨0, 1, -1⟩).getD 22 dummyCell) =
      outwardColor (initialCubes.getD 22 dummyCell) := by
  refine ⟨by decide, ?_⟩
  exact outer_move_fixes_centers initialCubes Reachable.init ⟨0, 1, -1⟩ (by decide) 22 (by decide)

/-- Claim C10: every move returns a list of the same length whose i-th element
keeps the i-th input element's id, and from the 27 initial cells any sequence
of moves keeps the id list exactly 0..26 in order. -/
theorem applyTurn_preserves_ids_and_order :
    (∀ (cubes : List CubeCell) (m : Move),
      (applyTurn cubes m).length = cubes.length ∧
      ∀ i : Nat, ((applyTurn cubes m).getD i dummyCell).id = (cubes.getD i dummyCell).id) ∧
    (∀ moves : List Move,
      (moves.foldl applyTurn initialCubes).map (fun c => c.id) = List.range 27) := by
  constructor
  · intro cubes m
    constructor
    · simp [applyTurn]
    · intro i
      have hbase : (applyTurn cubes m).getD i dummyCell = cellAfterTurn m (cubes.getD i dummyCell) :=
        getD_map_fixed (cellAfterTurn m) cubes (cellAfterTurn_dummy m) i
      rw [hbase]
      exact cellAfterTurn_id m (cubes.getD i dummyCell)
  · have hgen : ∀ (ms : List Move) (s : List CubeCell),
        (ms.foldl applyTurn s).map (fun c => c.id) = s.map (fun c => c.id) := by
      intro ms
      induction ms with
      | nil => intro s; rfl
      | cons mm rest ih =>
        intro s
        rw [List.foldl_cons, ih (applyTurn s mm), map_id_applyTurn]
    intro moves
    rw [hgen moves initialCubes]
    decide
